import Mathlib

/-!
# gormv2-logrus: the option set and its functional options

Shallow embedding of `options.go`.  The Go code mutates an `options` value
through a pointer; here every mutation is a function `options → options`.

* a Go pointer (`*logrus.Entry`, `*logrus.Logger`) is `none` for `nil` and
  `some x` for a reference to the object `x`;
* a Go slice is `none` for the `nil` slice and `some xs` for a non-nil slice
  with elements `xs`;
* `time.Duration` (int64) and `logger.LogLevel` (int) are integers, `uint` is a
  natural number; the code only stores and copies them, no arithmetic is done.
-/

set_option autoImplicit false

namespace Gormv2logrus

/-! ## External types used by the option set -/

namespace logrus

/-- The object behind a non-nil `*logrus.Entry`, identified by its address. -/
structure Entry where
  addr : Nat
  deriving DecidableEq, Repr

/-- The object behind a non-nil `*logrus.Logger`, identified by its address. -/
structure Logger where
  addr : Nat
  deriving DecidableEq, Repr

end logrus

namespace time

/-- Go `time.Duration`: a signed count of nanoseconds. -/
abbrev Duration := Int

end time

namespace logger

/-- Level type of `gorm.io/gorm/logger`: `type LogLevel int`. -/
abbrev LogLevel := Int

/-- Constant `logger.Silent` of gorm (`iota + 1`). -/
def Silent : LogLevel := 1

/-- Constant `logger.Error` of gorm. -/
def Error : LogLevel := 2

/-- Constant `logger.Warn` of gorm. -/
def Warn : LogLevel := 3

/-- Constant `logger.Info` of gorm. -/
def Info : LogLevel := 4

/-- Membership in the enum silent / error / warn / info. -/
def isEnumLevel (l : LogLevel) : Prop :=
  l = Silent ∨ l = Error ∨ l = Warn ∨ l = Info

instance (l : LogLevel) : Decidable (isEnumLevel l) := by
  unfold isEnumLevel
  infer_instance

end logger

/-! ## Data model (`options.go`) -/

/-- BannedKeyword: a rule for scanning for Keyword in log output. -/
structure BannedKeyword where
  Keyword : String
  CaseMatters : Bool
  deriving DecidableEq, Repr

/-- The option set.  The field defaults are the Go zero values, which a
composite literal gives to every field it does not list. -/
structure options where
  bannedKeywords : Option (List BannedKeyword) := none
  logrusEntry : Option logrus.Entry := none
  lr : Option logrus.Logger := none
  SlowThreshold : time.Duration := 0
  LogLevel : logger.LogLevel := 0
  truncateLen : Nat := 0
  logLatency : Bool := false
  Colorful : Bool := false
  deriving DecidableEq, Repr

/-- GormOptions: the bundle handed to `WithGormOptions`. -/
structure GormOptions where
  SlowThreshold : time.Duration := 0
  LogLevel : logger.LogLevel := 0
  TruncateLen : Nat := 0
  LogLatency : Bool := false
  Colorful : Bool := false
  deriving DecidableEq, Repr

/-- Go `len` of a slice: the nil slice has length zero. -/
def len {α : Type} : Option (List α) → Nat
  | none => 0
  | some xs => xs.length

/-- defaultOptions: the literal lists four fields, the rest are zero values. -/
def defaultOptions : options :=
  { logrusEntry := none
    truncateLen := 0
    bannedKeywords := none
    logLatency := false }

/-- funcOption wraps a function that modifies options; it is the only
implementation of the `Option` interface. -/
structure funcOption where
  f : options → options

/-- Method `apply` of `funcOption`: run the wrapped function on the option set. -/
def funcOption.apply (fo : funcOption) (o : options) : options :=
  fo.f o

/-- newGormLogOption: wrap a modifying function. -/
def newGormLogOption (f : options → options) : funcOption :=
  { f := f }

/-- WithLogrusEntry: `o.logrusEntry = logrusEntry`. -/
def WithLogrusEntry (logrusEntry : Option logrus.Entry) : funcOption :=
  newGormLogOption (fun o => { o with logrusEntry := logrusEntry })

/-- WithLogrus: `o.lr = lr`. -/
def WithLogrus (lr : Option logrus.Logger) : funcOption :=
  newGormLogOption (fun o => { o with lr := lr })

/-- WithBannedKeyword: `o.bannedKeywords = bannedKeywords`. -/
def WithBannedKeyword (bannedKeywords : Option (List BannedKeyword)) : funcOption :=
  newGormLogOption (fun o => { o with bannedKeywords := bannedKeywords })

/-- WithGormOptions: four assignments, in the order of the source. -/
def WithGormOptions (gormOpt : GormOptions) : funcOption :=
  newGormLogOption (fun o =>
    let o1 := { o with Colorful := gormOpt.Colorful }
    let o2 := { o1 with logLatency := gormOpt.LogLatency }
    let o3 := { o2 with LogLevel := gormOpt.LogLevel }
    { o3 with SlowThreshold := gormOpt.SlowThreshold })

/-- Modelled from the spec: the in-order application of a sequence of options
to an option set ("built by applying a sequence of configuration functions",
"when later applied in order").  The adapter constructor that runs this loop is
not among the source files; each step is the method `apply` of the source. -/
def applyAll (opts : List funcOption) (o : options) : options :=
  opts.foldl (fun acc fo => fo.apply acc) o

/-! ## Calls of the four public constructors -/

/-- A call of one of the four public constructors together with its argument. -/
inductive OptionCall where
  | withLogrusEntry (logrusEntry : Option logrus.Entry)
  | withLogrus (lr : Option logrus.Logger)
  | withBannedKeyword (bannedKeywords : Option (List BannedKeyword))
  | withGormOptions (gormOpt : GormOptions)
  deriving DecidableEq, Repr

/-- The option a constructor call returns. -/
def OptionCall.build : OptionCall → funcOption
  | .withLogrusEntry e => WithLogrusEntry e
  | .withLogrus l => WithLogrus l
  | .withBannedKeyword ks => WithBannedKeyword ks
  | .withGormOptions g => WithGormOptions g

/-- Apply the options of a sequence of constructor calls, in order, to `o`. -/
def run (cs : List OptionCall) (o : options) : options :=
  applyAll (cs.map OptionCall.build) o

/-- The option set reached from the fresh default one by a sequence of calls. -/
def configure (cs : List OptionCall) : options :=
  run cs defaultOptions

/-- The entry reference a call assigns to `logrusEntry`, if it assigns one. -/
def entrySupplied : OptionCall → Option (Option logrus.Entry)
  | .withLogrusEntry e => some e
  | _ => none

/-- The logger reference a call assigns to `lr`, if it assigns one. -/
def loggerSupplied : OptionCall → Option (Option logrus.Logger)
  | .withLogrus l => some l
  | _ => none

/-- The list a call assigns to `bannedKeywords`, if it assigns one. -/
def keywordsSupplied : OptionCall → Option (Option (List BannedKeyword))
  | .withBannedKeyword ks => some ks
  | _ => none

/-- The bundle whose fields a call assigns, if it is a `WithGormOptions` call. -/
def gormSupplied : OptionCall → Option GormOptions
  | .withGormOptions g => some g
  | _ => none

/-- The value supplied by the last call of the sequence that supplies one. -/
def lastSupplied {α : Type} (sel : OptionCall → Option α) (cs : List OptionCall) : Option α :=
  cs.reverse.findSome? sel

/-- At most one of the two destination references is set. -/
def atMostOneDestination (o : options) : Prop :=
  o.logrusEntry = none ∨ o.lr = none

instance (o : options) : Decidable (atMostOneDestination o) := by
  unfold atMostOneDestination
  infer_instance

/-! ## Helper lemmas -/

theorem applyAll_snoc (opts : List funcOption) (fo : funcOption) (o : options) :
    applyAll (opts ++ [fo]) o = fo.apply (applyAll opts o) := by
  simp [applyAll, List.foldl_append]

theorem run_nil (o : options) : run [] o = o := rfl

theorem run_snoc (cs : List OptionCall) (c : OptionCall) (o : options) :
    run (cs ++ [c]) o = c.build.apply (run cs o) := by
  simp [run, List.map_append, applyAll_snoc]

theorem lastSupplied_nil {α : Type} (sel : OptionCall → Option α) :
    lastSupplied sel [] = none := rfl

theorem lastSupplied_snoc {α : Type} (sel : OptionCall → Option α)
    (cs : List OptionCall) (c : OptionCall) :
    lastSupplied sel (cs ++ [c]) =
      match sel c with
      | some v => some v
      | none => lastSupplied sel cs := by
  cases h : sel c <;> simp [lastSupplied, List.reverse_append, List.findSome?_cons, h]

theorem run_logrusEntry (cs : List OptionCall) (o : options) :
    (run cs o).logrusEntry = (lastSupplied entrySupplied cs).getD o.logrusEntry := by
  induction cs using List.reverseRecOn with
  | nil => rfl
  | append_singleton cs c ih =>
    rw [run_snoc, lastSupplied_snoc]
    cases c <;> simp [OptionCall.build, entrySupplied, WithLogrusEntry, WithLogrus,
      WithBannedKeyword, WithGormOptions, newGormLogOption, funcOption.apply, ih]

theorem run_lr (cs : List OptionCall) (o : options) :
    (run cs o).lr = (lastSupplied loggerSupplied cs).getD o.lr := by
  induction cs using List.reverseRecOn with
  | nil => rfl
  | append_singleton cs c ih =>
    rw [run_snoc, lastSupplied_snoc]
    cases c <;> simp [OptionCall.build, loggerSupplied, WithLogrusEntry, WithLogrus,
      WithBannedKeyword, WithGormOptions, newGormLogOption, funcOption.apply, ih]

theorem run_bannedKeywords (cs : List OptionCall) (o : options) :
    (run cs o).bannedKeywords = (lastSupplied keywordsSupplied cs).getD o.bannedKeywords := by
  induction cs using List.reverseRecOn with
  | nil => rfl
  | append_singleton cs c ih =>
    rw [run_snoc, lastSupplied_snoc]
    cases c <;> simp [OptionCall.build, keywordsSupplied, WithLogrusEntry, WithLogrus,
      WithBannedKeyword, WithGormOptions, newGormLogOption, funcOption.apply, ih]

theorem run_gorm_fields (cs : List OptionCall) (o : options) :
    (run cs o).SlowThreshold =
      ((lastSupplied gormSupplied cs).map GormOptions.SlowThreshold).getD o.SlowThreshold ∧
    (run cs o).LogLevel =
      ((lastSupplied gormSupplied cs).map GormOptions.LogLevel).getD o.LogLevel ∧
    (run cs o).logLatency =
      ((lastSupplied gormSupplied cs).map GormOptions.LogLatency).getD o.logLatency ∧
    (run cs o).Colorful =
      ((lastSupplied gormSupplied cs).map GormOptions.Colorful).getD o.Colorful := by
  induction cs using List.reverseRecOn with
  | nil => exact ⟨rfl, rfl, rfl, rfl⟩
  | append_singleton cs c ih =>
    rw [run_snoc, lastSupplied_snoc]
    cases c <;> simp [OptionCall.build, gormSupplied, WithLogrusEntry, WithLogrus,
      WithBannedKeyword, WithGormOptions, newGormLogOption, funcOption.apply, ih]

theorem run_truncateLen (cs : List OptionCall) (o : options) :
    (run cs o).truncateLen = o.truncateLen := by
  induction cs using List.reverseRecOn with
  | nil => rfl
  | append_singleton cs c ih =>
    rw [run_snoc]
    cases c <;> simp [OptionCall.build, WithLogrusEntry, WithLogrus,
      WithBannedKeyword, WithGormOptions, newGormLogOption, funcOption.apply, ih]

theorem lastSupplied_mem {α : Type} {sel : OptionCall → Option α} {cs : List OptionCall}
    {v : α} (h : lastSupplied sel cs = some v) : ∃ c ∈ cs, sel c = some v := by
  obtain ⟨c, hc, hv⟩ := List.exists_of_findSome?_eq_some h
  exact ⟨c, List.mem_reverse.mp hc, hv⟩

theorem lastSupplied_eq_none_iff {α : Type} {sel : OptionCall → Option α}
    {cs : List OptionCall} : lastSupplied sel cs = none ↔ ∀ c ∈ cs, sel c = none := by
  unfold lastSupplied
  rw [List.findSome?_eq_none_iff]
  constructor
  · intro h c hc
    exact h c (List.mem_reverse.mpr hc)
  · intro h c hc
    exact h c (List.mem_reverse.mp hc)

theorem gormSupplied_eq_some {c : OptionCall} {g : GormOptions}
    (h : gormSupplied c = some g) : c = OptionCall.withGormOptions g := by
  cases c <;> simp [gormSupplied] at h
  rw [h]

/-! ## Single constructors -/

/-- C1 (evaluation at the failing input): applying `WithGormOptions` with
`TruncateLen = 10` to the default option set leaves the truncate length at 0,
which differs from the `TruncateLen` of the bundle. -/
theorem WithGormOptions_truncateLen_not_copied :
    ((WithGormOptions { TruncateLen := 10 }).apply defaultOptions).truncateLen = 0 ∧
    ((WithGormOptions { TruncateLen := 10 }).apply defaultOptions).truncateLen ≠
      GormOptions.TruncateLen { TruncateLen := 10 } := by
  constructor
  · rfl
  · decide

/-- C2: after applying `WithGormOptions g` to any option set `o`, the slow
threshold, minimum level, latency flag and colour flag are those of `g`,
whatever `o` held before. -/
theorem WithGormOptions_sets_bundle (o : options) (g : GormOptions) :
    ((WithGormOptions g).apply o).SlowThreshold = g.SlowThreshold ∧
    ((WithGormOptions g).apply o).LogLevel = g.LogLevel ∧
    ((WithGormOptions g).apply o).logLatency = g.LogLatency ∧
    ((WithGormOptions g).apply o).Colorful = g.Colorful :=
  ⟨rfl, rfl, rfl, rfl⟩

/-- C4: two options built by two different constructors commute: applied to any
option set `o` in either order they give the same option set (all six pairs of
distinct constructors). -/
theorem different_constructors_commute (o : options) (e : Option logrus.Entry)
    (l : Option logrus.Logger) (ks : Option (List BannedKeyword)) (g : GormOptions) :
    (WithLogrus l).apply ((WithLogrusEntry e).apply o) =
      (WithLogrusEntry e).apply ((WithLogrus l).apply o) ∧
    (WithBannedKeyword ks).apply ((WithLogrusEntry e).apply o) =
      (WithLogrusEntry e).apply ((WithBannedKeyword ks).apply o) ∧
    (WithGormOptions g).apply ((WithLogrusEntry e).apply o) =
      (WithLogrusEntry e).apply ((WithGormOptions g).apply o) ∧
    (WithBannedKeyword ks).apply ((WithLogrus l).apply o) =
      (WithLogrus l).apply ((WithBannedKeyword ks).apply o) ∧
    (WithGormOptions g).apply ((WithLogrus l).apply o) =
      (WithLogrus l).apply ((WithGormOptions g).apply o) ∧
    (WithGormOptions g).apply ((WithBannedKeyword ks).apply o) =
      (WithBannedKeyword ks).apply ((WithGormOptions g).apply o) :=
  ⟨rfl, rfl, rfl, rfl, rfl, rfl⟩

/-- C5: the three single-field constructors store their argument exactly and
accept every value (each is a total function returning an option set, there is
no error result): the stored reference or list equals the argument, also for a
nil reference, the nil list and the empty list; the stored list has the same
length; and on the default option set `WithLogrus l` gives `lr = l` with
`logrusEntry` still nil. -/
theorem single_field_constructors_store_exactly (o : options) (e : Option logrus.Entry)
    (l : Option logrus.Logger) (ks : Option (List BannedKeyword)) :
    ((WithLogrusEntry e).apply o).logrusEntry = e ∧
    ((WithLogrus l).apply o).lr = l ∧
    ((WithBannedKeyword ks).apply o).bannedKeywords = ks ∧
    len ((WithBannedKeyword ks).apply o).bannedKeywords = len ks ∧
    ((WithLogrusEntry none).apply o).logrusEntry = none ∧
    ((WithLogrus none).apply o).lr = none ∧
    ((WithBannedKeyword none).apply o).bannedKeywords = none ∧
    ((WithBannedKeyword (some [])).apply o).bannedKeywords = some [] ∧
    ((WithLogrus l).apply defaultOptions).lr = l ∧
    ((WithLogrus l).apply defaultOptions).logrusEntry = none :=
  ⟨rfl, rfl, rfl, rfl, rfl, rfl, rfl, rfl, rfl, rfl⟩

/-- C6: frame.  `WithLogrusEntry` leaves every field but `logrusEntry`
unchanged, `WithLogrus` every field but `lr`, `WithBannedKeyword` every field
but `bannedKeywords`; `WithGormOptions` leaves both destination references and
the banned-keyword list unchanged. -/
theorem constructors_frame (o : options) (e : Option logrus.Entry)
    (l : Option logrus.Logger) (ks : Option (List BannedKeyword)) (g : GormOptions) :
    (((WithLogrusEntry e).apply o).bannedKeywords = o.bannedKeywords ∧
      ((WithLogrusEntry e).apply o).lr = o.lr ∧
      ((WithLogrusEntry e).apply o).SlowThreshold = o.SlowThreshold ∧
      ((WithLogrusEntry e).apply o).LogLevel = o.LogLevel ∧
      ((WithLogrusEntry e).apply o).truncateLen = o.truncateLen ∧
      ((WithLogrusEntry e).apply o).logLatency = o.logLatency ∧
      ((WithLogrusEntry e).apply o).Colorful = o.Colorful) ∧
    (((WithLogrus l).apply o).bannedKeywords = o.bannedKeywords ∧
      ((WithLogrus l).apply o).logrusEntry = o.logrusEntry ∧
      ((WithLogrus l).apply o).SlowThreshold = o.SlowThreshold ∧
      ((WithLogrus l).apply o).LogLevel = o.LogLevel ∧
      ((WithLogrus l).apply o).truncateLen = o.truncateLen ∧
      ((WithLogrus l).apply o).logLatency = o.logLatency ∧
      ((WithLogrus l).apply o).Colorful = o.Colorful) ∧
    (((WithBannedKeyword ks).apply o).logrusEntry = o.logrusEntry ∧
      ((WithBannedKeyword ks).apply o).lr = o.lr ∧
      ((WithBannedKeyword ks).apply o).SlowThreshold = o.SlowThreshold ∧
      ((WithBannedKeyword ks).apply o).LogLevel = o.LogLevel ∧
      ((WithBannedKeyword ks).apply o).truncateLen = o.truncateLen ∧
      ((WithBannedKeyword ks).apply o).logLatency = o.logLatency ∧
      ((WithBannedKeyword ks).apply o).Colorful = o.Colorful) ∧
    (((WithGormOptions g).apply o).logrusEntry = o.logrusEntry ∧
      ((WithGormOptions g).apply o).lr = o.lr ∧
      ((WithGormOptions g).apply o).bannedKeywords = o.bannedKeywords) :=
  ⟨⟨rfl, rfl, rfl, rfl, rfl, rfl, rfl⟩, ⟨rfl, rfl, rfl, rfl, rfl, rfl, rfl⟩,
    ⟨rfl, rfl, rfl, rfl, rfl, rfl, rfl⟩, ⟨rfl, rfl, rfl⟩⟩

/-- C8: the fresh default option set (no option applied) has both destination
references nil, the nil (empty) banned-keyword list, slow threshold 0, truncate
length 0, and latency and colour flags false. -/
theorem defaultOptions_values :
    (configure []).logrusEntry = none ∧
    (configure []).lr = none ∧
    (configure []).bannedKeywords = none ∧
    len (configure []).bannedKeywords = 0 ∧
    (configure []).SlowThreshold = 0 ∧
    (configure []).truncateLen = 0 ∧
    (configure []).logLatency = false ∧
    (configure []).Colorful = false ∧
    configure [] = defaultOptions :=
  ⟨rfl, rfl, rfl, rfl, rfl, rfl, rfl, rfl, rfl⟩

/-! ## Sequences of options applied to the default option set -/

/-- C3: last write wins.  After any sequence of constructor calls applied in
order to the default option set, every field holds the value supplied by the
last call that assigns it, and its default value when no call assigns it
(`WithGormOptions` assigns `SlowThreshold`, `LogLevel`, `logLatency` and
`Colorful`; no constructor assigns `truncateLen`).  In particular, for each of
the four constructors, applying it twice to any option set gives the same option
set as the second application alone. -/
theorem last_write_wins (cs : List OptionCall) (o : options)
    (e1 e2 : Option logrus.Entry) (l1 l2 : Option logrus.Logger)
    (k1 k2 : Option (List BannedKeyword)) (g1 g2 : GormOptions) :
    ((configure cs).logrusEntry =
        (lastSupplied entrySupplied cs).getD defaultOptions.logrusEntry ∧
      (configure cs).lr =
        (lastSupplied loggerSupplied cs).getD defaultOptions.lr ∧
      (configure cs).bannedKeywords =
        (lastSupplied keywordsSupplied cs).getD defaultOptions.bannedKeywords ∧
      (configure cs).SlowThreshold =
        ((lastSupplied gormSupplied cs).map GormOptions.SlowThreshold).getD
          defaultOptions.SlowThreshold ∧
      (configure cs).LogLevel =
        ((lastSupplied gormSupplied cs).map GormOptions.LogLevel).getD
          defaultOptions.LogLevel ∧
      (configure cs).logLatency =
        ((lastSupplied gormSupplied cs).map GormOptions.LogLatency).getD
          defaultOptions.logLatency ∧
      (configure cs).Colorful =
        ((lastSupplied gormSupplied cs).map GormOptions.Colorful).getD
          defaultOptions.Colorful ∧
      (configure cs).truncateLen = defaultOptions.truncateLen) ∧
    ((WithLogrusEntry e2).apply ((WithLogrusEntry e1).apply o) = (WithLogrusEntry e2).apply o ∧
      (WithLogrus l2).apply ((WithLogrus l1).apply o) = (WithLogrus l2).apply o ∧
      (WithBannedKeyword k2).apply ((WithBannedKeyword k1).apply o) =
        (WithBannedKeyword k2).apply o ∧
      (WithGormOptions g2).apply ((WithGormOptions g1).apply o) =
        (WithGormOptions g2).apply o) := by
  obtain ⟨h1, h2, h3, h4⟩ := run_gorm_fields cs defaultOptions
  exact ⟨⟨run_logrusEntry cs defaultOptions, run_lr cs defaultOptions,
    run_bannedKeywords cs defaultOptions, h1, h2, h3, h4, run_truncateLen cs defaultOptions⟩,
    ⟨rfl, rfl, rfl, rfl⟩⟩

/-- C7 (counterexample): applying `WithLogrusEntry` and then `WithLogrus`, both
with a non-nil reference, to the default option set sets both destination
references. -/
theorem both_destinations_set :
    ¬ atMostOneDestination
      (configure [OptionCall.withLogrusEntry (some { addr := 1 }),
        OptionCall.withLogrus (some { addr := 2 })]) := by
  decide

/-- C7 (amended): after any sequence of constructor calls applied to the default
option set, at most one destination reference is set exactly when the sequence
has no `WithLogrusEntry` call or its last `WithLogrusEntry` call carries nil, or
it has no `WithLogrus` call or its last `WithLogrus` call carries nil. -/
theorem atMostOneDestination_iff_last_nil (cs : List OptionCall) :
    atMostOneDestination (configure cs) ↔
      (lastSupplied entrySupplied cs = none ∨ lastSupplied entrySupplied cs = some none) ∨
      (lastSupplied loggerSupplied cs = none ∨ lastSupplied loggerSupplied cs = some none) := by
  unfold atMostOneDestination configure
  rw [run_logrusEntry, run_lr]
  rcases he : lastSupplied entrySupplied cs with _ | _ | e <;>
    rcases hl : lastSupplied loggerSupplied cs with _ | _ | l <;>
    simp [defaultOptions]

/-- Instance of C7 (amended): a non-nil entry reference, then a non-nil logger
reference, then a nil entry reference leave only the logger reference set. -/
theorem atMostOneDestination_iff_last_nil_witness :
    atMostOneDestination
      (configure [OptionCall.withLogrusEntry (some { addr := 1 }),
        OptionCall.withLogrus (some { addr := 2 }),
        OptionCall.withLogrusEntry none]) :=
  (atMostOneDestination_iff_last_nil _).mpr (Or.inl (Or.inr rfl))

/-- C9 (counterexample): the default option set with no option applied has
level 0, which is none of silent (1), error (2), warn (3), info (4). -/
theorem default_level_not_in_enum :
    ¬ logger.isEnumLevel (configure []).LogLevel := by
  decide

/-- C9 (amended): when every `WithGormOptions` call of the sequence carries a
level of the enum, the level reached from the default option set is a level of
the enum as soon as the sequence has a `WithGormOptions` call, and is 0 (not a
level of the enum) when it has none. -/
theorem level_enum_or_zero (cs : List OptionCall)
    (h : ∀ g, OptionCall.withGormOptions g ∈ cs → logger.isEnumLevel g.LogLevel) :
    ((∃ g, OptionCall.withGormOptions g ∈ cs) → logger.isEnumLevel (configure cs).LogLevel) ∧
    ((∀ g, OptionCall.withGormOptions g ∉ cs) → (configure cs).LogLevel = 0) := by
  have hlv := (run_gorm_fields cs defaultOptions).2.1
  cases hl : lastSupplied gormSupplied cs with
  | none =>
    rw [hl] at hlv
    have hnone := lastSupplied_eq_none_iff.mp hl
    constructor
    · rintro ⟨g, hg⟩
      have := hnone _ hg
      simp [gormSupplied] at this
    · intro _
      exact hlv
  | some g =>
    rw [hl] at hlv
    obtain ⟨c, hc, hv⟩ := lastSupplied_mem hl
    rw [gormSupplied_eq_some hv] at hc
    constructor
    · intro _
      show logger.isEnumLevel (run cs defaultOptions).LogLevel
      rw [hlv]
      exact h g hc
    · intro hno
      exact absurd hc (hno g)

/-- Witness for C9 (amended): one `WithGormOptions` call with level info. -/
theorem level_enum_or_zero_witness :
    (∀ g, OptionCall.withGormOptions g ∈
        [OptionCall.withLogrus none, OptionCall.withGormOptions { LogLevel := 4 }] →
      logger.isEnumLevel g.LogLevel) ∧
    logger.isEnumLevel
      (configure [OptionCall.withLogrus none,
        OptionCall.withGormOptions { LogLevel := 4 }]).LogLevel :=
  have hyp : ∀ g, OptionCall.withGormOptions g ∈
      [OptionCall.withLogrus none, OptionCall.withGormOptions { LogLevel := 4 }] →
      logger.isEnumLevel g.LogLevel := by
    intro g hg
    simp at hg
    subst hg
    decide
  ⟨hyp, (level_enum_or_zero _ hyp).1 ⟨{ LogLevel := 4 }, by simp⟩⟩

/-- C10: after any sequence of calls of the four public constructors applied to
the default option set, the truncate length is 0. -/
theorem truncateLen_always_zero (cs : List OptionCall) :
    (configure cs).truncateLen = 0 :=
  run_truncateLen cs defaultOptions

end Gormv2logrus
